/-
Verification of the fafevosim decision/motion pipeline against its
natural-language specification.

The Rust sources are shallowly embedded:
  * `src/ecs.rs`   — SimTime / update_simulation_time_system, the
    SimulationState/SimulationMode control machine, move_smittys_system,
    neural_network_update_system;
  * `src/net.rs`   — NN, NN::random, NN::run / NN::do_run, NNActivation;
  * `src/simworld.rs` — SimWorld, SimWorld::tile, SimWorld::index.

Machine integers (`u32`, `usize`) are modelled as `Nat`; the claims under
study concern frame counts and list lengths far below 2^32, where the Rust
arithmetic agrees with `Nat` arithmetic.  `f32` values are modelled as real
numbers (the claims concern the algebraic wrap / forward-pass structure,
not rounding).  A Rust panic (an `unwrap` or slice index that can fail) is
modelled by an `Option` layer whose `none` means "the process panics".
-/
import Mathlib

namespace Fafevosim

/-! ## SimClock (src/ecs.rs) -/

/-- Source `src/ecs.rs`: `pub const NETWORK_UPDATE_PERIOD: u32 = 60;`
The number of world tick frames between feed-forward executions. -/
def NETWORK_UPDATE_PERIOD : ℕ := 60

/-- Source `src/ecs.rs` `SimTime` resource: the simulation clock counters. -/
structure SimTime where
  /-- The current world execution frame count (`world_frame: u32`). -/
  world_frame : ℕ
  /-- The current neural tick count (`neural_frame: u32`). -/
  neural_frame : ℕ
  /-- The world frame count at the last neural update (`last_neural_tick_frame: u32`). -/
  last_neural_tick_frame : ℕ
  /-- Whether this frame is a neural update frame (`is_neural_tick_frame: bool`). -/
  is_neural_tick_frame : Bool
  deriving Repr, DecidableEq

/-- The `#[derive(Default)]` instance: all counters zero, flag false. -/
instance : Inhabited SimTime := ⟨⟨0, 0, 0, false⟩⟩

/-- Source `src/ecs.rs` `update_simulation_time_system`: increments the frame,
computes `delta = frame - last_neural_tick_frame`, marks the frame as a
neural tick when `delta >= NETWORK_UPDATE_PERIOD`, and on a neural tick
bumps `neural_frame` and resets `last_neural_tick_frame` to the new frame. -/
def update_simulation_time_system (s : SimTime) : SimTime :=
  let frame := s.world_frame + 1
  let delta := frame - s.last_neural_tick_frame
  let isTick := decide (delta ≥ NETWORK_UPDATE_PERIOD)
  { world_frame := frame
    neural_frame := if isTick then s.neural_frame + 1 else s.neural_frame
    last_neural_tick_frame := if isTick then frame else s.last_neural_tick_frame
    is_neural_tick_frame := isTick }

/-- The clock state reached after `n` ticks from the fresh (default) clock. -/
def simTimeAfter (n : ℕ) : SimTime :=
  Nat.iterate update_simulation_time_system n default

/-! ## SimulationState / SimulationMode control machine
(src/ecs.rs enums, src/gui.rs buttons)

`NetworkEcsPlugin::build` registers the loopless states with initial values
`SimulationState::Stop` and `SimulationMode::Single`, and gates every
simulation system (`move_smittys_system`, `update_simulation_time_system`,
the three neural systems) with `run_in_state(SimulationState::Run)`.
The only writes to either state anywhere in the repository are the three
button handlers in `smitty_inspector_egui_system` (src/gui.rs); no system
reads `SimulationMode` or reverts `Run` to `Stop` after a tick. -/

/-- Source `src/ecs.rs` `SimulationState`. -/
inductive SimulationState where
  | Stop
  | Run
  deriving Repr, DecidableEq

/-- Source `src/ecs.rs` `SimulationMode`. -/
inductive SimulationMode where
  | Single
  | Auto
  deriving Repr, DecidableEq

/-- The run-control configuration: both loopless states plus the clock. -/
structure SimControl where
  state : SimulationState
  mode : SimulationMode
  time : SimTime
  deriving Repr, DecidableEq

/-- The configuration installed by `NetworkEcsPlugin::build`:
state `Stop`, mode `Single`, default clock. -/
def initControl : SimControl :=
  ⟨SimulationState.Stop, SimulationMode.Single, default⟩

/-- Source `src/gui.rs` lines 112–120: the Start button is enabled exactly when the
state is `Stop`; clicking it inserts `NextState(SimulationState::Run)`. -/
def start_button (c : SimControl) : SimControl :=
  if c.state = SimulationState.Stop then { c with state := SimulationState.Run } else c

/-- Source `src/gui.rs` lines 122–130: the Stop button is enabled exactly when the
state is `Run`; clicking it inserts `NextState(SimulationState::Stop)`. -/
def stop_button (c : SimControl) : SimControl :=
  if c.state = SimulationState.Run then { c with state := SimulationState.Stop } else c

/-- Source `src/gui.rs` lines 132–140: the Step Frame button is enabled exactly when
the state is `Stop`; clicking it inserts `NextState(SimulationMode::Single)`.
It does not change `SimulationState`. -/
def step_frame_button (c : SimControl) : SimControl :=
  if c.state = SimulationState.Stop then { c with mode := SimulationMode.Single } else c

/-- One scheduler frame: the per-frame systems (in particular
`update_simulation_time_system`, which ticks the clock) run exactly when the
state is `Run` (`run_in_state(SimulationState::Run)` in
`NetworkEcsPlugin::build`); no system writes `state` or `mode`. -/
def run_frame (c : SimControl) : SimControl :=
  if c.state = SimulationState.Run then
    { c with time := update_simulation_time_system c.time }
  else c

/-! ## NetworkEngine (src/net.rs)

The network is generic over the scalar type (the source is generic over any
`num_traits::Float`).  The `rand::thread_rng` draws of `NN::random` are
modelled by an oracle `rng` giving the weight drawn for weight position `wi`
of node `ni` of constructed layer `li`; nothing below depends on the drawn
values. -/

/-- Source `src/net.rs` `NNCreateError`.  `Min2Layers` ("neural network must
have at least an input layer and output layer") is the error the spec calls
`TooFewLayers`. -/
inductive NNCreateError where
  | Min2Layers
  | EmptyLayer
  deriving Repr, DecidableEq

/-- Source `src/net.rs` `NN`: the layers (a layer is a list of nodes, a node
its list of weights, threshold first), plus the fixed input count. -/
structure NN (α : Type) where
  layers : List (List (List α))
  num_inputs : ℕ
  deriving DecidableEq

/-- The layer-construction loop of `NN::random`: for each remaining layer
size, build `layer_size` nodes of `prev_layer_size + 1` weights each, every
weight drawn from the `rng` oracle. -/
def randomLayers {α : Type} (rng : ℕ → ℕ → ℕ → α) :
    ℕ → ℕ → List ℕ → List (List (List α))
  | _, _, [] => []
  | li, prev_layer_size, layer_size :: rest =>
    (List.range layer_size).map
        (fun ni => (List.range (prev_layer_size + 1)).map (rng li ni))
      :: randomLayers rng (li + 1) layer_size rest

/-- Source `src/net.rs` `NN::random`: errors with `Min2Layers` when fewer
than two layer sizes are given, with `EmptyLayer` when any layer size is
`< 1`; otherwise builds the layers, the first size becoming `num_inputs`. -/
def NN.random {α : Type} (rng : ℕ → ℕ → ℕ → α) (layers_sizes : List ℕ) :
    Except NNCreateError (NN α) :=
  if layers_sizes.length < 2 then Except.error NNCreateError.Min2Layers
  else if layers_sizes.any (fun layer_size => decide (layer_size < 1)) then
    Except.error NNCreateError.EmptyLayer
  else
    match layers_sizes with
    | [] => Except.error NNCreateError.Min2Layers -- dead: guarded by the length check
    | first_layer_size :: rest =>
      Except.ok
        { layers := randomLayers rng 0 first_layer_size rest
          num_inputs := first_layer_size }

/-- The `modified_dotprod` helper of `NN::do_run`: starts from the node's
threshold weight (`it.next().unwrap()`; `none` models that panic on an empty
node, which construction rules out) and accumulates weight·value over the
zip of the remaining weights with the previous layer's values. -/
def modified_dotprod {α : Type} [Add α] [Mul α] :
    List α → List α → Option α
  | [], _ => none
  | threshold :: ws, values =>
    some ((ws.zip values).foldl (fun total wv => total + wv.1 * wv.2) threshold)

/-- The inner node loop of `NN::do_run`: one layer's results, each node's
dot product passed through the activation.  `none` propagates a
`modified_dotprod` panic. -/
def runLayerNodes {α : Type} [Add α] [Mul α] (activation : α → α)
    (values : List α) : List (List α) → Option (List α)
  | [] => some []
  | node :: rest => do
    let v ← (modified_dotprod node values).map activation
    let vs ← runLayerNodes activation values rest
    some (v :: vs)

/-- The outer layer loop of `NN::do_run`: each layer consumes the previous
entry of the `results` vector (`results[layer_index]`, i.e. the previous
layer's results, here threaded directly as `values`) and appends its own
results.  Returns the pushed result vectors (excluding the input vector). -/
def runLayers {α : Type} [Add α] [Mul α] (activation : α → α) :
    List (List (List α)) → List α → Option (List (List α))
  | [], _ => some []
  | layer :: restLayers, values => do
    let layer_results ← runLayerNodes activation values layer
    let rest ← runLayers activation restLayers layer_results
    some (layer_results :: rest)

/-- Source `src/net.rs` `NN::do_run`: size-checks the inputs
(`inputs.len() as u32 == self.num_inputs`), then runs the layer loop.  The
outer `Option` models panics; the `Except` mirrors the `Result`, with
`Except.error ()` exactly when the input size mismatches. -/
def NN.do_run {α : Type} [Add α] [Mul α] (nn : NN α) (activation : α → α)
    (inputs : List α) : Option (Except Unit (List (List α))) :=
  if inputs.length = nn.num_inputs then
    (runLayers activation nn.layers inputs).map
      (fun rs => Except.ok (inputs :: rs))
  else some (Except.error ())

/-- Source `src/net.rs` `NN::run`: `do_run(activation, inputs)?.pop().unwrap()`
— propagates the size-mismatch error, then pops the last layer's result
vector (`none` models the `unwrap` panic on an empty results vector, which
cannot happen since the results start with the inputs). -/
def NN.run {α : Type} [Add α] [Mul α] (nn : NN α) (activation : α → α)
    (inputs : List α) : Option (Except Unit (List α)) :=
  match nn.do_run activation inputs with
  | none => none
  | some (Except.error e) => some (Except.error e)
  | some (Except.ok results) => results.getLast?.map Except.ok

/-- Source `src/net.rs` `NNActivation`: the built-in activation functions. -/
inductive NNActivation where
  | Sigmoid
  deriving Repr, DecidableEq

/-- Source `src/net.rs` `ActivationFunction::perform` for `NNActivation`:
the logistic sigmoid `1 / (1 + e^(-val))`. -/
noncomputable def NNActivation.perform : NNActivation → ℝ → ℝ
  | NNActivation.Sigmoid, val => 1 / (1 + Real.exp (-val))

/-! ## Simulation-entity components and the neural update system
(src/ecs.rs) -/

/-- Source `src/ecs.rs` `SimEntityBrainOutputs`: the requested move &
rotation speeds, as fractions of the entity's maxima. -/
structure SimEntityBrainOutputs where
  move_amt : ℝ
  rot_amt : ℝ

/-- Source `src/ecs.rs` `SimEntityTraits`: inherited trait limits. -/
structure SimEntityTraits where
  max_move_speed : ℝ
  max_rot_speed : ℝ

/-- Source `src/ecs.rs` `neural_network_update_system`, for one agent: runs
the brain on the hard-coded inputs `[0.5, 0.5]` with the Sigmoid activation
and `.unwrap()`s the result, then stores elements 0 and 1 as the new
`(move_amt, rot_amt)`.  `none` models a panic: the `.unwrap()` on an input
size mismatch, a propagated panic from `run`, or an out-of-range
`output_results[i]` indexing. -/
noncomputable def neural_network_update_system (brain : NN ℝ) :
    Option SimEntityBrainOutputs :=
  match brain.run NNActivation.Sigmoid.perform [0.5, 0.5] with
  | none => none
  | some (Except.error _) => none
  | some (Except.ok output_results) =>
    match output_results with
    | move :: rot :: _ => some { move_amt := move, rot_amt := rot }
    | _ => none

/-! ## MotionIntegrator (src/ecs.rs `move_smittys_system`) -/

/-- Source `src/simworld.rs`: `pub const WORLD_SIZE: (usize, usize) = (25, 25);`
the width and height of the world in meter-wide tiles. -/
def WORLD_SIZE : ℕ × ℕ := (25, 25)

/-- Source `src/ecs.rs` `SimEntityPosRot`: position (`Vec2`, field `.0`) and
rotation in radians (`f32`, field `.1`). -/
structure SimEntityPosRot where
  pos : ℝ × ℝ
  rot : ℝ

/-- Source `src/ecs.rs` `move_smittys_system`, for one Smitty during one
frame with elapsed time `dt` (`time.delta_seconds()`):
remaps `rot_amt` to the signed `rot_req = rot_amt * 2 - 1`, integrates the
rotation and wraps it by a single conditional addition/subtraction of `2π`
(the wrap fires only on `new_rot < 0` or `new_rot > 2π`, both strict);
then advances the position along `(cos new_rot, sin new_rot)` scaled by
`move_amt * max_move_speed * dt` and wraps each coordinate by a single
conditional addition/subtraction of the world extent (again both
comparisons strict: `< 0` and `> extent`). -/
noncomputable def move_smittys_system (dt : ℝ) (posrot : SimEntityPosRot)
    (request : SimEntityBrainOutputs) (traits : SimEntityTraits) :
    SimEntityPosRot :=
  let rot_req := request.rot_amt * 2 - 1
  let new_rot0 := posrot.rot + rot_req * traits.max_rot_speed * dt
  let rad := 2 * Real.pi
  let new_rot :=
    if new_rot0 < 0 then new_rot0 + rad
    else if new_rot0 > rad then new_rot0 - rad
    else new_rot0
  let px := posrot.pos.1 + Real.cos new_rot * request.move_amt * traits.max_move_speed * dt
  let py := posrot.pos.2 + Real.sin new_rot * request.move_amt * traits.max_move_speed * dt
  let w : ℝ := (WORLD_SIZE.1 : ℝ)
  let h : ℝ := (WORLD_SIZE.2 : ℝ)
  let x := if px < 0 then px + w else if px > w then px - w else px
  let y := if py < 0 then py + h else if py > h then py - h else py
  { pos := (x, y), rot := new_rot }

/-! ## WorldGrid (src/simworld.rs) -/

/-- Source `src/simworld.rs` `SimTileType`. -/
inductive SimTileType where
  | Land
  | Water
  deriving Repr, DecidableEq

instance : Inhabited SimTileType := ⟨SimTileType.Land⟩

/-- Source `src/simworld.rs` `SimTile` (the `f32` food amounts are modelled
as rationals; the claims under study do not touch their values). -/
structure SimTile where
  tile_type : SimTileType
  food : ℚ
  max_food : ℚ
  deriving Repr, DecidableEq

/-- The `#[derive(Default)]` instance for `SimTile`. -/
instance : Inhabited SimTile := ⟨⟨default, 0, 0⟩⟩

/-- Source `src/simworld.rs` `SimWorld`: the flat tile vector and the
`(width, height)` size.  (The `tile_entities` vector is rendering state the
tile accessors never read and is omitted.) -/
structure SimWorld where
  tiles : List SimTile
  size : ℕ × ℕ
  deriving Repr, DecidableEq

/-- Source `src/simworld.rs` `SimWorld::new`: allocates `size.0 * size.1`
default tiles. -/
def SimWorld.new (size : ℕ × ℕ) : SimWorld :=
  { tiles := List.replicate (size.1 * size.2) default, size := size }

/-- Source `src/simworld.rs` `SimWorld::index`:
`pos.1 * self.size.1 + pos.0` — the flat index of `(x, y) = (pos.0, pos.1)`.
Note the stride is `size.1` (the grid height), not `size.0` (the width). -/
def SimWorld.index (w : SimWorld) (pos : ℕ × ℕ) : ℕ :=
  pos.2 * w.size.2 + pos.1

/-- Source `src/simworld.rs` `SimWorld::tile`: bounds-checks
`pos.0 < size.0 && pos.1 < size.1`, then reads `self.tiles[self.index(pos)]`.
`some (some t)` is the source's `Some(tile)`, `some none` its `None` (out of
world bounds); the outer `none` models the panic of the vector indexing when
the flat index falls outside the tile vector. -/
def SimWorld.tile (w : SimWorld) (pos : ℕ × ℕ) : Option (Option SimTile) :=
  if pos.1 < w.size.1 ∧ pos.2 < w.size.2 then
    (w.tiles.get? (w.index pos)).map some
  else some none

/-- Source `src/simworld.rs` `SimWorld::tile_mut`: identical bounds check and
indexing as `SimWorld::tile`; modelled by the tile the returned mutable
reference would point at. -/
def SimWorld.tile_mut (w : SimWorld) (pos : ℕ × ℕ) : Option (Option SimTile) :=
  if pos.1 < w.size.1 ∧ pos.2 < w.size.2 then
    (w.tiles.get? (w.index pos)).map some
  else some none

/-- The single-step wrap used (three times, inline) by `move_smittys_system`:
add the extent when the value is strictly below `0`, subtract it when the
value is strictly above the extent, otherwise leave it.  Note both
comparisons are strict, so a value exactly equal to the extent is returned
unchanged. -/
noncomputable def wrapStep (extent v : ℝ) : ℝ :=
  if v < 0 then v + extent else if v > extent then v - extent else v

/-! ## Theorems -/

set_option maxRecDepth 8000

/-- The heading written by `move_smittys_system` is the single-step wrap of
`heading + (rot_amt * 2 - 1) * max_rot_speed * dt` at extent `2π`
(definitional reading of the source). -/
theorem move_rot_eq (dt : ℝ) (pr : SimEntityPosRot) (req : SimEntityBrainOutputs)
    (tr : SimEntityTraits) :
    (move_smittys_system dt pr req tr).rot =
      wrapStep (2 * Real.pi) (pr.rot + (req.rot_amt * 2 - 1) * tr.max_rot_speed * dt) := rfl

/-- The x coordinate written by `move_smittys_system` is the single-step wrap
of `x + cos(new_heading) * move_amt * max_move_speed * dt` at extent
`WORLD_SIZE.0` (definitional reading of the source). -/
theorem move_pos_x_eq (dt : ℝ) (pr : SimEntityPosRot) (req : SimEntityBrainOutputs)
    (tr : SimEntityTraits) :
    (move_smittys_system dt pr req tr).pos.1 =
      wrapStep (WORLD_SIZE.1 : ℝ)
        (pr.pos.1 + Real.cos (move_smittys_system dt pr req tr).rot *
          req.move_amt * tr.max_move_speed * dt) := rfl

/-- The y coordinate written by `move_smittys_system` is the single-step wrap
of `y + sin(new_heading) * move_amt * max_move_speed * dt` at extent
`WORLD_SIZE.1` (definitional reading of the source). -/
theorem move_pos_y_eq (dt : ℝ) (pr : SimEntityPosRot) (req : SimEntityBrainOutputs)
    (tr : SimEntityTraits) :
    (move_smittys_system dt pr req tr).pos.2 =
      wrapStep (WORLD_SIZE.2 : ℝ)
        (pr.pos.2 + Real.sin (move_smittys_system dt pr req tr).rot *
          req.move_amt * tr.max_move_speed * dt) := rfl

/-- The single-step wrap lands in `[0, extent]` whenever the input lies in
`[-extent, 2 * extent]`. -/
theorem wrapStep_mem (extent v : ℝ) (h1 : -extent ≤ v)
    (h2 : v ≤ 2 * extent) : 0 ≤ wrapStep extent v ∧ wrapStep extent v ≤ extent := by
  unfold wrapStep
  split_ifs with ha hb
  · constructor <;> linarith
  · constructor <;> linarith
  · constructor <;> linarith

/-- A frame run in state `Stop` changes nothing: every simulation system is
gated by `run_in_state(SimulationState::Run)`. -/
theorem run_frame_stop (c : SimControl) (h : c.state = SimulationState.Stop) :
    run_frame c = c := by
  simp [run_frame, h]

/-- Any number of frames run in state `Stop` change nothing. -/
theorem run_frame_iterate_stop (c : SimControl)
    (h : c.state = SimulationState.Stop) (n : ℕ) : run_frame^[n] c = c := by
  induction n with
  | zero => rfl
  | succ n ih => rw [Function.iterate_succ_apply, run_frame_stop c h, ih]

/-- C1: evaluation of the code at the claim's scenario.  Starting from the
initial configuration (state `Stop`, mode `Single`), pressing Step Frame,
letting `n` frames pass, pressing Step Frame again and letting `m` more
frames pass leaves the state `Stop` with zero ticks on the clock: the Step
Frame button only sets `SimulationMode::Single` and never sets the state to
`Run`, no system reverts `Run` to `Stop` after a tick, and the tick systems
are gated on `Run` — so each step command produces zero ticks, not one, and
two step commands produce zero ticks, not two.  (The `SimulationMode::Single`
doc comment in src/ecs.rs documents the intended one-tick-then-stop
behaviour that is not implemented.) -/
theorem C1_code_bug_eval (n m : ℕ) :
    (run_frame^[m] (step_frame_button
        (run_frame^[n] (step_frame_button initControl)))).time.world_frame = 0
    ∧ (run_frame^[m] (step_frame_button
        (run_frame^[n] (step_frame_button initControl)))).state = SimulationState.Stop := by
  have h1 : step_frame_button initControl = initControl := by decide
  rw [h1, run_frame_iterate_stop initControl rfl n, h1,
    run_frame_iterate_stop initControl rfl m]
  exact ⟨rfl, rfl⟩

/-- C2: evaluation of the code at a failing input.  For an agent whose brain
was constructed with topology `[3, 3, 2]` (so `num_inputs = 3`), the
neural-tick update — which always feeds the two inputs `[0.5, 0.5]` — hits
the input-size mismatch, and `neural_network_update_system` evaluates to
`none`, i.e. the `.unwrap()` in src/ecs.rs panics and the process crashes,
instead of leaving the agent's cached output in effect and continuing as the
claim (and the spec's error-handling design) requires. -/
theorem C2_code_bug_eval :
    ∃ brain : NN ℝ,
      NN.random (fun _ _ _ => (0:ℝ)) [3, 3, 2] = Except.ok brain ∧
      neural_network_update_system brain = none := by
  refine ⟨⟨[[[0, 0, 0, 0], [0, 0, 0, 0], [0, 0, 0, 0]], [[0, 0, 0, 0], [0, 0, 0, 0]]], 3⟩,
    rfl, rfl⟩

/-- C3 (counterexample to the claim as stated): after the 60th clock update
from a fresh clock, `is_neural_tick_frame` is true, yet
`world_frame - last_neural_tick_frame = 0 < NETWORK_UPDATE_PERIOD`, because
the update resets `last_neural_tick_frame` to `world_frame` on a neural
tick.  So the claimed post-state equivalence fails. -/
theorem C3_counterexample :
    (simTimeAfter 60).is_neural_tick_frame = true ∧
    (simTimeAfter 60).world_frame - (simTimeAfter 60).last_neural_tick_frame
      < NETWORK_UPDATE_PERIOD := by
  decide

/-- C3 (amended): after every clock update, `is_neural_tick_frame` is true
iff the updated `world_frame` minus the value `last_neural_tick_frame` had
*before* the update is at least `NETWORK_UPDATE_PERIOD`.  Moreover, on a
non-tick frame the post-state difference is below the period, and on a tick
frame `last_neural_tick_frame` has been reset to equal `world_frame` (which
is exactly why the claim's post-state reading fails). -/
theorem C3_theorem (s : SimTime) :
    ((update_simulation_time_system s).is_neural_tick_frame = true ↔
      NETWORK_UPDATE_PERIOD ≤
        (update_simulation_time_system s).world_frame - s.last_neural_tick_frame)
    ∧ ((update_simulation_time_system s).is_neural_tick_frame = false →
        (update_simulation_time_system s).world_frame -
          (update_simulation_time_system s).last_neural_tick_frame < NETWORK_UPDATE_PERIOD)
    ∧ ((update_simulation_time_system s).is_neural_tick_frame = true →
        (update_simulation_time_system s).last_neural_tick_frame =
          (update_simulation_time_system s).world_frame) := by
  by_cases h : NETWORK_UPDATE_PERIOD ≤ s.world_frame + 1 - s.last_neural_tick_frame
  · simp [update_simulation_time_system, h]
  · simp [update_simulation_time_system, h]
    omega

/-- C3 witness: the amended statement applied at the concrete pre-state
`⟨59, 0, 0, false⟩`, whose update is a neural tick. -/
theorem C3_witness :
    (update_simulation_time_system ⟨59, 0, 0, false⟩).is_neural_tick_frame = true ∧
    (update_simulation_time_system ⟨59, 0, 0, false⟩).last_neural_tick_frame =
      (update_simulation_time_system ⟨59, 0, 0, false⟩).world_frame :=
  ⟨by decide, (C3_theorem ⟨59, 0, 0, false⟩).2.2 (by decide)⟩

/-- C4 (counterexample to the claim as stated): with starting heading `π`
(inside the canonical `[0, 2π)`), `rot_amt = 1`, `max_rot_speed = π` and
`dt = 1` — a per-tick delta of magnitude `π < 2π`, i.e. within the claim's
own normal-configuration bound — the integrated heading is exactly `2π`:
neither wrap branch fires (both comparisons are strict), and `2π` is not in
the half-open interval `[0, 2π)`. -/
theorem C4_counterexample :
    (move_smittys_system 1 ⟨(0, 0), Real.pi⟩ ⟨0, 1⟩ ⟨0, Real.pi⟩).rot = 2 * Real.pi
    ∧ 2 * Real.pi ≤ (move_smittys_system 1 ⟨(0, 0), Real.pi⟩ ⟨0, 1⟩ ⟨0, Real.pi⟩).rot := by
  have hrot : (move_smittys_system 1 ⟨(0, 0), Real.pi⟩ ⟨0, 1⟩ ⟨0, Real.pi⟩).rot
      = 2 * Real.pi := by
    rw [move_rot_eq]
    have hv : (⟨(0, 0), Real.pi⟩ : SimEntityPosRot).rot +
        ((⟨0, 1⟩ : SimEntityBrainOutputs).rot_amt * 2 - 1) *
          (⟨0, Real.pi⟩ : SimEntityTraits).max_rot_speed * 1 = 2 * Real.pi := by
      show Real.pi + ((1:ℝ) * 2 - 1) * Real.pi * 1 = 2 * Real.pi
      ring
    rw [hv]
    unfold wrapStep
    rw [if_neg (by push_neg; positivity), if_neg (by push_neg; exact le_rfl)]
  exact ⟨hrot, le_of_eq hrot.symm⟩

/-- C4 (amended): for a starting heading in the canonical range `[0, 2π)`
and a per-tick rotation delta `(rot_amt * 2 - 1) * max_rot_speed * dt` of
magnitude at most `2π`, the heading produced by one motion-integration step
lies in the *closed* interval `[0, 2π]` — the end point `2π` itself is
reachable because the wrap subtracts only when the value is strictly above
`2π`. -/
theorem C4_theorem (dt : ℝ) (pr : SimEntityPosRot) (req : SimEntityBrainOutputs)
    (tr : SimEntityTraits) (h0 : 0 ≤ pr.rot) (h1 : pr.rot < 2 * Real.pi)
    (h2 : |(req.rot_amt * 2 - 1) * tr.max_rot_speed * dt| ≤ 2 * Real.pi) :
    0 ≤ (move_smittys_system dt pr req tr).rot
    ∧ (move_smittys_system dt pr req tr).rot ≤ 2 * Real.pi := by
  obtain ⟨hd1, hd2⟩ := abs_le.mp h2
  rw [move_rot_eq]
  exact wrapStep_mem _ _ (by linarith) (by linarith)

/-- C4 witness: the amended statement applied at heading `0`, zero traits
and zero elapsed time. -/
theorem C4_witness :
    0 ≤ (move_smittys_system 0 ⟨(0, 0), 0⟩ ⟨0, 0⟩ ⟨0, 0⟩).rot
    ∧ (move_smittys_system 0 ⟨(0, 0), 0⟩ ⟨0, 0⟩ ⟨0, 0⟩).rot ≤ 2 * Real.pi :=
  C4_theorem 0 ⟨(0, 0), 0⟩ ⟨0, 0⟩ ⟨0, 0⟩ le_rfl (by positivity)
    (by simp [abs_nonneg]; positivity)

/-- C5 (counterexample to the claim as stated): in the `25 × 25` world, a
Smitty at `x = 12.5` with heading `0` (so `cos = 1`), `move_amt = 1`,
`max_move_speed = 12.5` and `dt = 1` — a displacement of `12.5 < 25`, within
the claim's own restriction — lands at `x = 25` exactly: the wrap subtracts
only when the coordinate is strictly above the extent (not "at or above" as
the claim describes), and `25` is not in the half-open interval `[0, 25)`. -/
theorem C5_counterexample :
    (move_smittys_system 1 ⟨(25 / 2, 25 / 2), 0⟩ ⟨1, 1 / 2⟩ ⟨25 / 2, 0⟩).pos.1 = 25
    ∧ (WORLD_SIZE.1 : ℝ) ≤
        (move_smittys_system 1 ⟨(25 / 2, 25 / 2), 0⟩ ⟨1, 1 / 2⟩ ⟨25 / 2, 0⟩).pos.1 := by
  have hrot : (move_smittys_system 1 ⟨(25 / 2, 25 / 2), 0⟩ ⟨1, 1 / 2⟩ ⟨25 / 2, 0⟩).rot
      = 0 := by
    rw [move_rot_eq]
    have hv : (⟨(25 / 2, 25 / 2), 0⟩ : SimEntityPosRot).rot +
        ((⟨1, 1 / 2⟩ : SimEntityBrainOutputs).rot_amt * 2 - 1) *
          (⟨25 / 2, 0⟩ : SimEntityTraits).max_rot_speed * 1 = 0 := by
      show (0:ℝ) + ((1 / 2 : ℝ) * 2 - 1) * 0 * 1 = 0
      ring
    rw [hv]
    unfold wrapStep
    rw [if_neg (lt_irrefl 0), if_neg (by push_neg; positivity)]
  have hx : (move_smittys_system 1 ⟨(25 / 2, 25 / 2), 0⟩ ⟨1, 1 / 2⟩ ⟨25 / 2, 0⟩).pos.1
      = 25 := by
    rw [move_pos_x_eq, hrot]
    have hv : (⟨(25 / 2, 25 / 2), 0⟩ : SimEntityPosRot).pos.1 +
        Real.cos 0 * (⟨1, 1 / 2⟩ : SimEntityBrainOutputs).move_amt *
          (⟨25 / 2, 0⟩ : SimEntityTraits).max_move_speed * 1 = 25 := by
      show (25 / 2 : ℝ) + Real.cos 0 * 1 * (25 / 2) * 1 = 25
      rw [Real.cos_zero]
      ring
    rw [hv]
    unfold wrapStep
    rw [if_neg (by push_neg; norm_num), if_neg (by push_neg; norm_num [WORLD_SIZE])]
  refine ⟨hx, ?_⟩
  rw [hx]
  norm_num [WORLD_SIZE]

/-- C5 (amended): for a starting position with both coordinates in
`[0, extent]` and a per-tick displacement factor
`move_amt * max_move_speed * dt` of magnitude at most the world extent, one
motion-integration step lands in the *closed* square `[0, W] × [0, H]` — the
boundary values `W`/`H` themselves are reachable because the wrap subtracts
only when the coordinate is strictly above the extent. -/
theorem C5_theorem (dt : ℝ) (pr : SimEntityPosRot) (req : SimEntityBrainOutputs)
    (tr : SimEntityTraits)
    (hx0 : 0 ≤ pr.pos.1) (hx1 : pr.pos.1 ≤ (WORLD_SIZE.1 : ℝ))
    (hy0 : 0 ≤ pr.pos.2) (hy1 : pr.pos.2 ≤ (WORLD_SIZE.2 : ℝ))
    (hm : |req.move_amt * tr.max_move_speed * dt| ≤ (WORLD_SIZE.1 : ℝ)) :
    (0 ≤ (move_smittys_system dt pr req tr).pos.1
      ∧ (move_smittys_system dt pr req tr).pos.1 ≤ (WORLD_SIZE.1 : ℝ))
    ∧ (0 ≤ (move_smittys_system dt pr req tr).pos.2
      ∧ (move_smittys_system dt pr req tr).pos.2 ≤ (WORLD_SIZE.2 : ℝ)) := by
  have hw : (WORLD_SIZE.1 : ℝ) = (WORLD_SIZE.2 : ℝ) := by norm_num [WORLD_SIZE]
  have hdx : |Real.cos ((move_smittys_system dt pr req tr).rot) *
      req.move_amt * tr.max_move_speed * dt| ≤ (WORLD_SIZE.1 : ℝ) := by
    have he : Real.cos ((move_smittys_system dt pr req tr).rot) *
        req.move_amt * tr.max_move_speed * dt =
        Real.cos ((move_smittys_system dt pr req tr).rot) *
          (req.move_amt * tr.max_move_speed * dt) := by ring
    rw [he, abs_mul]
    calc |Real.cos ((move_smittys_system dt pr req tr).rot)| *
          |req.move_amt * tr.max_move_speed * dt|
        ≤ 1 * |req.move_amt * tr.max_move_speed * dt| :=
          mul_le_mul_of_nonneg_right (Real.abs_cos_le_one _) (abs_nonneg _)
      _ = |req.move_amt * tr.max_move_speed * dt| := one_mul _
      _ ≤ (WORLD_SIZE.1 : ℝ) := hm
  have hdy : |Real.sin ((move_smittys_system dt pr req tr).rot) *
      req.move_amt * tr.max_move_speed * dt| ≤ (WORLD_SIZE.1 : ℝ) := by
    have he : Real.sin ((move_smittys_system dt pr req tr).rot) *
        req.move_amt * tr.max_move_speed * dt =
        Real.sin ((move_smittys_system dt pr req tr).rot) *
          (req.move_amt * tr.max_move_speed * dt) := by ring
    rw [he, abs_mul]
    calc |Real.sin ((move_smittys_system dt pr req tr).rot)| *
          |req.move_amt * tr.max_move_speed * dt|
        ≤ 1 * |req.move_amt * tr.max_move_speed * dt| :=
          mul_le_mul_of_nonneg_right (Real.abs_sin_le_one _) (abs_nonneg _)
      _ = |req.move_amt * tr.max_move_speed * dt| := one_mul _
      _ ≤ (WORLD_SIZE.1 : ℝ) := hm
  obtain ⟨hdx1, hdx2⟩ := abs_le.mp hdx
  obtain ⟨hdy1, hdy2⟩ := abs_le.mp hdy
  constructor
  · rw [move_pos_x_eq]
    exact wrapStep_mem _ _ (by linarith) (by linarith)
  · rw [move_pos_y_eq]
    rw [hw] at hdy1 hdy2
    exact wrapStep_mem _ _ (by linarith) (by linarith)

/-- C5 witness: the amended statement applied at position `(1, 1)` with zero
displacement. -/
theorem C5_witness :
    (0 ≤ (move_smittys_system 0 ⟨(1, 1), 0⟩ ⟨0, 0⟩ ⟨0, 0⟩).pos.1
      ∧ (move_smittys_system 0 ⟨(1, 1), 0⟩ ⟨0, 0⟩ ⟨0, 0⟩).pos.1 ≤ (WORLD_SIZE.1 : ℝ))
    ∧ (0 ≤ (move_smittys_system 0 ⟨(1, 1), 0⟩ ⟨0, 0⟩ ⟨0, 0⟩).pos.2
      ∧ (move_smittys_system 0 ⟨(1, 1), 0⟩ ⟨0, 0⟩ ⟨0, 0⟩).pos.2 ≤ (WORLD_SIZE.2 : ℝ)) :=
  C5_theorem 0 ⟨(1, 1), 0⟩ ⟨0, 0⟩ ⟨0, 0⟩ (by norm_num) (by norm_num [WORLD_SIZE])
    (by norm_num) (by norm_num [WORLD_SIZE]) (by norm_num [WORLD_SIZE])

/-- C6: evaluation of the code at a failing input.  On a non-square grid of
width 2 and height 3, the in-bounds position `(x, y) = (1, 2)` makes both
`tile` and `tile_mut` panic (`none`): `SimWorld::index` computes the flat
index `y * size.1 + x = 2 * 3 + 1 = 7` — the stride is the *height*, not the
width — which falls outside the 6-element tile vector.  The claim's
row-major index `y * width + x = 5` is in range (third conjunct), so the
accessors should have returned that tile. -/
theorem C6_code_bug_eval :
    (SimWorld.new (2, 3)).tile (1, 2) = none
    ∧ (SimWorld.new (2, 3)).tile_mut (1, 2) = none
    ∧ (SimWorld.new (2, 3)).tiles.get? (2 * 2 + 1) = some default := by
  decide

/-- C7: with `NETWORK_UPDATE_PERIOD = 60`, starting from the fresh clock,
the updates for frames 1–59 leave `is_neural_tick_frame` false; the update
for frame 60 sets it true with `neural_frame = 1` and
`last_neural_tick_frame = 60`; the updates for frames 61–119 leave it false
again; and the update for frame 120 sets it true. -/
theorem C7_theorem :
    (∀ n < 60, 1 ≤ n → (simTimeAfter n).is_neural_tick_frame = false)
    ∧ (simTimeAfter 60).is_neural_tick_frame = true
    ∧ (simTimeAfter 60).neural_frame = 1
    ∧ (simTimeAfter 60).last_neural_tick_frame = 60
    ∧ (∀ n < 120, 60 < n → (simTimeAfter n).is_neural_tick_frame = false)
    ∧ (simTimeAfter 120).is_neural_tick_frame = true := by
  decide

/-- C7 witness: the bounded statement applied at frame 30. -/
theorem C7_witness : (simTimeAfter 30).is_neural_tick_frame = false :=
  C7_theorem.1 30 (by decide) (by decide)

/-- C8: `NN::random` returns the too-few-layers error (`Min2Layers`, the
spec's `TooFewLayers`) for every layer-size sequence of length below two,
returns `EmptyLayer` for every sequence of length at least two containing a
zero, and succeeds on every sequence of length at least two with all sizes
positive — for any weight oracle. -/
theorem C8_theorem {α : Type} (rng : ℕ → ℕ → ℕ → α) (sizes : List ℕ) :
    (sizes.length < 2 → NN.random rng sizes = Except.error NNCreateError.Min2Layers)
    ∧ (2 ≤ sizes.length → 0 ∈ sizes →
        NN.random rng sizes = Except.error NNCreateError.EmptyLayer)
    ∧ (2 ≤ sizes.length → (∀ s ∈ sizes, 0 < s) →
        ∃ nn, NN.random rng sizes = Except.ok nn) := by
  refine ⟨?_, ?_, ?_⟩
  · intro h
    unfold NN.random
    rw [if_pos h]
  · intro h hz
    unfold NN.random
    rw [if_neg (by omega), if_pos]
    rw [List.any_eq_true]
    exact ⟨0, hz, by decide⟩
  · intro h hpos
    have hany : ¬ ((sizes.any fun layer_size => decide (layer_size < 1)) = true) := by
      rw [List.any_eq_true]
      rintro ⟨x, hx, hlt⟩
      have := hpos x hx
      simp at hlt
      omega
    cases sizes with
    | nil => simp at h
    | cons a rest =>
      refine ⟨{ layers := randomLayers rng 0 a rest, num_inputs := a }, ?_⟩
      unfold NN.random
      rw [if_neg (by omega), if_neg hany]

/-- C8 witness: the success branch applied to the program's own topology
`[2, 3, 2]` with a zero weight oracle. -/
theorem C8_witness : ∃ nn, NN.random (fun _ _ _ => (0:ℚ)) [2, 3, 2] = Except.ok nn :=
  (C8_theorem (fun _ _ _ => (0:ℚ)) [2, 3, 2]).2.2 (by decide) (by decide)

/-- Every node of every layer built by the construction loop is non-empty:
each node has `prev_layer_size + 1 ≥ 1` weights. -/
theorem randomLayers_nodes_ne_nil {α : Type} (rng : ℕ → ℕ → ℕ → α) :
    ∀ (sizes : List ℕ) (li prev : ℕ), ∀ layer ∈ randomLayers rng li prev sizes,
      ∀ node ∈ layer, node ≠ [] := by
  intro sizes
  induction sizes with
  | nil =>
    intro li prev layer hlayer
    simp [randomLayers] at hlayer
  | cons a rest ih =>
    intro li prev layer hlayer node hnode
    rw [randomLayers, List.mem_cons] at hlayer
    rcases hlayer with rfl | hlayer
    · rw [List.mem_map] at hnode
      obtain ⟨ni, _, rfl⟩ := hnode
      intro hcontra
      have hlen : ((List.range (prev + 1)).map (rng li ni)).length = prev + 1 := by
        simp
      rw [hcontra] at hlen
      simp at hlen
    · exact ih (li + 1) a layer hlayer node hnode

/-- The node loop succeeds on any layer whose nodes are all non-empty. -/
theorem runLayerNodes_isSome {α : Type} [Add α] [Mul α] (activation : α → α)
    (values : List α) :
    ∀ (layer : List (List α)), (∀ node ∈ layer, node ≠ []) →
      ∃ rs, runLayerNodes activation values layer = some rs := by
  intro layer
  induction layer with
  | nil =>
    intro _
    exact ⟨[], rfl⟩
  | cons node rest ih =>
    intro h
    obtain ⟨rs, hrs⟩ := ih (fun n hn => h n (List.mem_cons_of_mem _ hn))
    have hnode := h node (List.mem_cons_self _ _)
    obtain ⟨t, ws, rfl⟩ : ∃ t ws, node = t :: ws := by
      cases node with
      | nil => exact absurd rfl hnode
      | cons t ws => exact ⟨t, ws, rfl⟩
    exact ⟨activation ((ws.zip values).foldl (fun total wv => total + wv.1 * wv.2) t) :: rs,
      by simp [runLayerNodes, modified_dotprod, hrs]⟩

/-- The layer loop succeeds whenever every node of every layer is
non-empty. -/
theorem runLayers_isSome {α : Type} [Add α] [Mul α] (activation : α → α) :
    ∀ (layers : List (List (List α))) (values : List α),
      (∀ layer ∈ layers, ∀ node ∈ layer, node ≠ []) →
      ∃ rs, runLayers activation layers values = some rs := by
  intro layers
  induction layers with
  | nil =>
    intro values _
    exact ⟨[], rfl⟩
  | cons layer rest ih =>
    intro values h
    obtain ⟨lr, hlr⟩ :=
      runLayerNodes_isSome activation values layer (h layer (List.mem_cons_self _ _))
    obtain ⟨rs, hrs⟩ := ih lr (fun l hl => h l (List.mem_cons_of_mem _ hl))
    exact ⟨lr :: rs, by simp [runLayers, hlr, hrs]⟩

/-- A non-empty list has a last element. -/
theorem getLast?_cons_isSome {β : Type} :
    ∀ (l : List β) (a : β), ∃ y, (a :: l).getLast? = some y := by
  intro l
  induction l with
  | nil =>
    intro a
    exact ⟨a, rfl⟩
  | cons b t ih =>
    intro a
    obtain ⟨y, hy⟩ := ih b
    exact ⟨y, by rw [List.getLast?_cons_cons]; exact hy⟩

/-- C9: for every network produced by `NN::random`, evaluation via `NN::run`
returns the input-size-mismatch error exactly when the input list's length
differs from `num_inputs`, and on every input of matching length it returns
(without panicking) the forward-pass output vector. -/
theorem C9_theorem {α : Type} [Add α] [Mul α] (rng : ℕ → ℕ → ℕ → α)
    (sizes : List ℕ) (nn : NN α) (hnn : NN.random rng sizes = Except.ok nn)
    (activation : α → α) (inputs : List α) :
    (inputs.length ≠ nn.num_inputs →
      nn.run activation inputs = some (Except.error ()))
    ∧ (inputs.length = nn.num_inputs →
        ∃ out, nn.run activation inputs = some (Except.ok out)) := by
  constructor
  · intro h
    simp [NN.run, NN.do_run, h]
  · intro h
    have hlayers : ∀ layer ∈ nn.layers, ∀ node ∈ layer, node ≠ [] := by
      unfold NN.random at hnn
      split_ifs at hnn
      cases sizes with
      | nil => exact absurd hnn (by simp)
      | cons a rest =>
        simp only [Except.ok.injEq] at hnn
        subst hnn
        exact randomLayers_nodes_ne_nil rng rest 0 a
    obtain ⟨rs, hrs⟩ := runLayers_isSome activation nn.layers inputs hlayers
    obtain ⟨out, hout⟩ := getLast?_cons_isSome rs inputs
    exact ⟨out, by simp [NN.run, NN.do_run, h, hrs, hout]⟩

/-- C9 witness: the matching-length branch applied to the zero-weight
`[2, 3, 2]` network over `ℚ` with the identity activation and inputs
`[1, 2]`. -/
theorem C9_witness :
    ∃ out,
      (({ layers := [[[0, 0, 0], [0, 0, 0], [0, 0, 0]], [[0, 0, 0, 0], [0, 0, 0, 0]]],
          num_inputs := 2 } : NN ℚ)).run id [1, 2] = some (Except.ok out) :=
  (C9_theorem (fun _ _ _ => (0:ℚ)) [2, 3, 2] _ rfl id [1, 2]).2 rfl

/-- The sigmoid of zero is one half. -/
theorem sigmoid_perform_zero : NNActivation.Sigmoid.perform 0 = 1 / 2 := by
  simp [NNActivation.perform, Real.exp_zero]
  norm_num

/-- C10: the `[2, 3, 2]` network all of whose weights (bias terms included)
are zero, evaluated with the sigmoid activation on any input list of length
two, returns (without error) an output vector of length two whose every
element is `sigmoid(0) = 0.5`. -/
theorem C10_theorem (nn : NN ℝ)
    (hnn : NN.random (fun _ _ _ => (0:ℝ)) [2, 3, 2] = Except.ok nn)
    (inputs : List ℝ) (h : inputs.length = 2) :
    ∃ out, nn.run NNActivation.Sigmoid.perform inputs = some (Except.ok out)
      ∧ out.length = 2 ∧ ∀ v ∈ out, v = 1 / 2 := by
  have hnn' :
      nn = { layers := [[[0, 0, 0], [0, 0, 0], [0, 0, 0]],
                        [[0, 0, 0, 0], [0, 0, 0, 0]]], num_inputs := 2 } := by
    have hc : NN.random (fun _ _ _ => (0:ℝ)) [2, 3, 2] =
        Except.ok ({ layers := [[[0, 0, 0], [0, 0, 0], [0, 0, 0]],
                                [[0, 0, 0, 0], [0, 0, 0, 0]]], num_inputs := 2 } : NN ℝ) := rfl
    rw [hc] at hnn
    simpa using hnn.symm
  subst hnn'
  obtain ⟨a, b, rfl⟩ : ∃ a b, inputs = [a, b] := by
    cases inputs with
    | nil => simp at h
    | cons a t =>
      cases t with
      | nil => simp at h
      | cons b t2 =>
        cases t2 with
        | nil => exact ⟨a, b, rfl⟩
        | cons c t3 => simp at h
  have hmdp3 : ∀ x y : ℝ, modified_dotprod [(0:ℝ), 0, 0] [x, y] = some 0 := by
    intro x y
    simp [modified_dotprod]
  have hmdp4 : ∀ x y z : ℝ, modified_dotprod [(0:ℝ), 0, 0, 0] [x, y, z] = some 0 := by
    intro x y z
    simp [modified_dotprod]
  refine ⟨[1 / 2, 1 / 2], ?_, by simp, by simp⟩
  have hl1 : runLayerNodes NNActivation.Sigmoid.perform [a, b]
      [[(0:ℝ), 0, 0], [0, 0, 0], [0, 0, 0]] = some [1 / 2, 1 / 2, 1 / 2] := by
    simp [runLayerNodes, hmdp3, sigmoid_perform_zero]
  have hl2 : runLayerNodes NNActivation.Sigmoid.perform [(2:ℝ)⁻¹, 2⁻¹, 2⁻¹]
      [[(0:ℝ), 0, 0, 0], [0, 0, 0, 0]] = some [2⁻¹, 2⁻¹] := by
    simp [runLayerNodes, hmdp4, sigmoid_perform_zero]
  simp [NN.run, NN.do_run, runLayers, hl1, hl2, List.getLast?]

/-- C10 witness: the statement applied to the concrete zero-weight network
and the concrete inputs `[37, -5]`. -/
theorem C10_witness :
    ∃ out,
      (({ layers := [[[0, 0, 0], [0, 0, 0], [0, 0, 0]], [[0, 0, 0, 0], [0, 0, 0, 0]]],
          num_inputs := 2 } : NN ℝ)).run NNActivation.Sigmoid.perform [37, -5] =
        some (Except.ok out) ∧ out.length = 2 ∧ ∀ v ∈ out, v = 1 / 2 :=
  C10_theorem _ rfl [37, -5] rfl

end Fafevosim
